import Mathlib

set_option maxHeartbeats 1000000

/-!
Verification development for the `meeting_summary` repository.

The Python sources are shallowly embedded: pure functions become Lean
functions, the mutable `PipelineJob` record becomes explicit state passing,
raised exceptions become `Except` values, and the filesystem plus the
external tools (ffmpeg, Whisper, the Ollama backend) become explicit
oracle parameters.  Machine floats in SRT timestamp formatting are
modelled by exact rationals; the concrete constants checked below are
exactly representable in a way that makes the model agree with the
Python evaluation.
-/

namespace MeetingSummary

/-- One progress record of a pipeline job, mirroring the dict
`{'type': typ, 'text': text, 'ts': time.time()}` appended by
`PipelineJob.push` in `web.py`.  Wall-clock `time.time()` is modelled as
an abstract natural number supplied at push time. -/
structure Event where
  typ : String
  text : String
  ts : Nat
deriving DecidableEq

/-- The structured success payload assembled in `_run_pipeline_job`
(`web.py`, the dict passed to `job.complete({...})`). -/
structure JobResult where
  audio_id : String
  download_url : String
  download_transcript_url : Option String
  download_srt_url : Option String
  transcript : String
  summary : String
deriving DecidableEq

/-- The `PipelineJob` dataclass of `web.py`.  The lock and condition
variable are synchronisation primitives, not observable state, and are
omitted; `created_at` keeps the creation timestamp. -/
structure PipelineJob where
  job_id : String
  created_at : Nat
  messages : List Event
  result : Option JobResult
  error : Option String
  done : Bool
deriving DecidableEq

/-- `PipelineJob.push` of `web.py`: append one event to the job log. -/
def PipelineJob.push (j : PipelineJob) (typ text : String) (ts : Nat) : PipelineJob :=
  { j with messages := j.messages ++ [⟨typ, text, ts⟩] }

/-- `PipelineJob.complete` of `web.py`: unconditionally store `result`
and `error` and set `done := true`.  Note the absence of any guard on a
job that is already done. -/
def PipelineJob.complete (j : PipelineJob) (result : Option JobResult) (error : Option String) : PipelineJob :=
  { j with result := result, error := error, done := true }

/-- `_new_job` of `web.py` together with the dataclass defaults: fresh
job with empty log, no result, no error, not done. -/
def newJob (job_id : String) (now : Nat) : PipelineJob :=
  { job_id := job_id, created_at := now, messages := [], result := none, error := none, done := false }

/-- A sample success payload, as `_run_pipeline_job` would build it. -/
def sampleJobResult : JobResult :=
  { audio_id := "a.wav"
    download_url := "/api/download/audio/a.wav"
    download_transcript_url := none
    download_srt_url := none
    transcript := "t"
    summary := "s" }

/-- Claim C1: evaluation of the code at the failing input.  A job that
has completed successfully (`done = true`, `result` set) and then
receives a second completion call — exactly what the cleanup path of
`_run_pipeline_job` does — has its `result` cleared to `none` and its
`error` overwritten, so a completion call after `done` is already true
does have an externally visible effect, contrary to the claim. -/
theorem claim_c1 :
    ((newJob "job" 0).complete (some sampleJobResult) none).done = true ∧
    ((newJob "job" 0).complete (some sampleJobResult) none).result = some sampleJobResult ∧
    (((newJob "job" 0).complete (some sampleJobResult) none).complete none (some "cleanup failed")).result = none ∧
    (((newJob "job" 0).complete (some sampleJobResult) none).complete none (some "cleanup failed")).error = some "cleanup failed" := by
  exact ⟨rfl, rfl, rfl, rfl⟩

/-- Observable facts about the staged audio artifact that
`_run_pipeline_job` consults: its file name and which derived files
exist when the success payload is assembled. -/
structure AudioInfo where
  name : String
  audioExists : Bool
  transcriptExists : Bool
  srtExists : Bool
deriving DecidableEq

/-- Abstract outcomes of the three stage calls and of the cleanup
`unlink` performed by `_run_pipeline_job` (`web.py`).  `Except.error e`
stands for a raised exception whose `str(e)` is `e`; `cleanupOutcome =
some e` means the `finally` block's deletion attempt raised `e`. -/
structure RunEnv where
  whisper_model : String
  ollama_model : String
  extractOutcome : Except String AudioInfo
  transcribeOutcome : Except String String
  summaryOutcome : Except String (Option String)
  cleanupOutcome : Option String

/-- Push with the model's monotone tick clock: `time.time()` is
abstracted as the current length of the message log. -/
def pushTick (j : PipelineJob) (typ text : String) : PipelineJob :=
  j.push typ text j.messages.length

/-- The `except` branch of `_run_pipeline_job`: push an `error` event
and complete the job with the exception text. -/
def pipelineFail (j : PipelineJob) (e : String) : PipelineJob :=
  (pushTick j "error" ("Pipeline failed: " ++ e)).complete none (some e)

/-- The `try` body of `_run_pipeline_job` (`web.py`): run the three
stages in order, pushing `step`/`ok` events, and finalize with either a
structured success payload or the first raised error. -/
def runPipelineTry (env : RunEnv) (j : PipelineJob) : PipelineJob :=
  let j1 := pushTick j "info" "Starting pipeline: video ➜ audio ➜ transcript ➜ summary"
  let j2 := pushTick j1 "step" "Extracting audio..."
  match env.extractOutcome with
  | .error e => pipelineFail j2 e
  | .ok audio =>
    if audio.audioExists = false then pipelineFail j2 "Audio file missing after extraction" else
    let j3 := pushTick j2 "ok" ("Audio ready: " ++ audio.name)
    let j4 := pushTick j3 "step" ("Transcribing with Whisper model \"" ++ env.whisper_model ++ "\"...")
    match env.transcribeOutcome with
    | .error e => pipelineFail j4 e
    | .ok transcript =>
      let j5 := pushTick j4 "ok" "Transcription completed"
      let j6 := pushTick j5 "step" ("Generating summary with model \"" ++ env.ollama_model ++ "\"...")
      match env.summaryOutcome with
      | .error e => pipelineFail j6 e
      | .ok none => pipelineFail j6 "Summary generation returned empty result"
      | .ok (some summary) =>
        if summary = "" then pipelineFail j6 "Summary generation returned empty result" else
        let j7 := pushTick j6 "ok" "Summary completed"
        j7.complete (some {
          audio_id := audio.name
          download_url := "/api/download/audio/" ++ audio.name
          download_transcript_url := if audio.transcriptExists then some ("/api/download/transcript/" ++ audio.name) else none
          download_srt_url := if audio.srtExists then some ("/api/download/srt/" ++ audio.name) else none
          transcript := transcript
          summary := summary }) none

/-- The `finally` block of `_run_pipeline_job`: if deleting the staged
upload raises, push an `error` event and call `complete` again with the
cleanup error. -/
def runPipelineCleanup (env : RunEnv) (j : PipelineJob) : PipelineJob :=
  match env.cleanupOutcome with
  | none => j
  | some e => (pushTick j "error" ("Failed to cleanup uploaded video " ++ e)).complete none (some e)

/-- `_run_pipeline_job` of `web.py`: the `try/except` body followed by
the `finally` cleanup. -/
def runPipelineJob (env : RunEnv) (j : PipelineJob) : PipelineJob :=
  runPipelineCleanup env (runPipelineTry env j)

/-- Claim C2: if all three stages succeed (so the job completes with a
success payload and no error) and the cleanup deletion then fails with
message `m`, the runner appends one more `error` event
(`Failed to cleanup uploaded video m`) and re-completes the job as
failed: the previously recorded `result` is cleared to `none` and
`error` is set to the cleanup failure description. -/
theorem claim_c2 (env : RunEnv) (jid : String) (now : Nat) (a : AudioInfo) (tr s m : String)
    (hex : env.extractOutcome = .ok a) (hae : a.audioExists = true)
    (htr : env.transcribeOutcome = .ok tr)
    (hsu : env.summaryOutcome = .ok (some s)) (hs : s ≠ "")
    (hcl : env.cleanupOutcome = some m) :
    (runPipelineTry env (newJob jid now)).result.isSome = true ∧
    (runPipelineTry env (newJob jid now)).error = none ∧
    (runPipelineTry env (newJob jid now)).done = true ∧
    (runPipelineJob env (newJob jid now)).result = none ∧
    (runPipelineJob env (newJob jid now)).error = some m ∧
    (runPipelineJob env (newJob jid now)).done = true ∧
    (runPipelineJob env (newJob jid now)).messages =
      (runPipelineTry env (newJob jid now)).messages ++
        [⟨"error", "Failed to cleanup uploaded video " ++ m,
          (runPipelineTry env (newJob jid now)).messages.length⟩] := by
  simp only [runPipelineJob, runPipelineTry, runPipelineCleanup, hex, hae, htr, hsu, hcl,
    if_neg hs, pushTick, pipelineFail, PipelineJob.push, PipelineJob.complete, newJob]
  simp

/-- A concrete environment in which every stage succeeds and the cleanup
deletion fails. -/
def cleanupFailEnv : RunEnv :=
  { whisper_model := "turbo"
    ollama_model := "qwen3:30b-a3b"
    extractOutcome := .ok { name := "a.wav", audioExists := true, transcriptExists := true, srtExists := true }
    transcribeOutcome := .ok "the transcript"
    summaryOutcome := .ok (some "the summary")
    cleanupOutcome := some "boom" }

/-- Witness for Claim C2 at the concrete environment `cleanupFailEnv`. -/
theorem claim_c2_witness :
    (runPipelineTry cleanupFailEnv (newJob "j" 0)).result.isSome = true ∧
    (runPipelineJob cleanupFailEnv (newJob "j" 0)).result = none ∧
    (runPipelineJob cleanupFailEnv (newJob "j" 0)).error = some "boom" := by
  have h := claim_c2 cleanupFailEnv "j" 0
    { name := "a.wav", audioExists := true, transcriptExists := true, srtExists := true }
    "the transcript" "the summary" "boom" rfl rfl rfl rfl (by decide) rfl
  exact ⟨h.1, h.2.2.2.1, h.2.2.2.2.1⟩

/-- `PipelineJob.push` only appends to the message log: the log is
append-only, previously seen entries are unchanged. -/
theorem push_messages (j : PipelineJob) (typ text : String) (ts : Nat) :
    (j.push typ text ts).messages = j.messages ++ [⟨typ, text, ts⟩] := rfl

/-- One subscriber of `pipeline_events.event_stream` (`web.py`): each
time it wakes up holding the job lock it observes a snapshot of
`job.messages` and yields the entries from its private cursor to the end
of the snapshot, then advances the cursor to the snapshot length.
`deliver c snaps` is the whole sequence of events yielded over the
snapshots `snaps` starting from cursor `c`. -/
def deliver (c : Nat) : List (List Event) → List Event
  | [] => []
  | s :: rest => s.drop c ++ deliver s.length rest

/-- The snapshots one subscriber observes form a chain in which each
snapshot extends the previous one, because `PipelineJob.push` only ever
appends to the shared log. -/
def MonotoneLog : List (List Event) → Prop
  | [] => True
  | [_] => True
  | a :: b :: rest => b.take a.length = a ∧ MonotoneLog (b :: rest)

/-- In a monotone snapshot chain, the first snapshot persists as a
leading portion of the final snapshot. -/
theorem monotoneLog_getLast_take (a : List Event) (l : List (List Event))
    (h : MonotoneLog (a :: l)) :
    ((a :: l).getLast (by simp)).take a.length = a := by
  induction l generalizing a with
  | nil => simp
  | cons b rest ih =>
    obtain ⟨hb, h'⟩ := h
    have hab : a.length ≤ b.length := by
      have := congrArg List.length hb
      simp [List.length_take] at this
      omega
    have hG := ih b h'
    rw [List.getLast_cons (by simp)]
    calc ((b :: rest).getLast (by simp)).take a.length
        = (((b :: rest).getLast (by simp)).take b.length).take a.length := by
          rw [List.take_take, Nat.min_eq_left hab]
      _ = b.take a.length := by rw [hG]
      _ = a := hb

/-- A subscriber that reads a monotone snapshot chain with its cursor
delivers exactly the final snapshot from its starting offset onward:
no reordering, no duplication, no loss. -/
theorem deliver_eq_drop (c : Nat) (a : List Event) (l : List (List Event))
    (h : MonotoneLog (a :: l)) (hc : c ≤ a.length) :
    deliver c (a :: l) = ((a :: l).getLast (by simp)).drop c := by
  induction l generalizing a c with
  | nil => simp [deliver]
  | cons b rest ih =>
    obtain ⟨hb, h'⟩ := h
    have hab : a.length ≤ b.length := by
      have := congrArg List.length hb
      simp [List.length_take] at this
      omega
    have hrec := ih a.length b h' hab
    have hG : ((b :: rest).getLast (by simp)).take a.length = a := by
      have hGb := monotoneLog_getLast_take b rest h'
      calc ((b :: rest).getLast (by simp)).take a.length
          = (((b :: rest).getLast (by simp)).take b.length).take a.length := by
            rw [List.take_take, Nat.min_eq_left hab]
        _ = b.take a.length := by rw [hGb]
        _ = a := hb
    rw [List.getLast_cons (by simp)]
    show a.drop c ++ deliver a.length (b :: rest) = _
    rw [hrec]
    set G := (b :: rest).getLast (by simp) with hGdef
    conv_rhs => rw [← List.take_append_drop a.length G]
    rw [List.drop_append_eq_append_drop, hG, Nat.sub_eq_zero_of_le hc, List.drop_zero]

/-- Claim C3: any two subscribers that replay a job's event stream from
offset 0, each observing its own monotone chain of snapshots of the
shared append-only log and both chains ending at the same final log `L`
(the log when the job finishes), deliver exactly the same sequence of
events before the terminal done event — namely `L` itself, in append
order. -/
theorem claim_c3 (chain1 chain2 : List (List Event)) (L : List Event)
    (h1 : MonotoneLog chain1) (h2 : MonotoneLog chain2)
    (hl1 : chain1.getLast? = some L) (hl2 : chain2.getLast? = some L) :
    deliver 0 chain1 = deliver 0 chain2 ∧ deliver 0 chain1 = L := by
  have key : ∀ (ch : List (List Event)), MonotoneLog ch → ch.getLast? = some L →
      deliver 0 ch = L := by
    intro ch hch hlast
    cases ch with
    | nil => simp at hlast
    | cons a l =>
      have hne : a :: l ≠ [] := by simp
      have := deliver_eq_drop 0 a l hch (Nat.zero_le _)
      rw [this, List.drop_zero]
      have := List.getLast?_eq_getLast (a :: l) hne
      rw [hlast] at this
      exact (Option.some_injective _ this).symm
  have e1 := key chain1 h1 hl1
  have e2 := key chain2 h2 hl2
  exact ⟨e1.trans e2.symm, e1⟩

/-- A first concrete event, used by the Claim C3 witness. -/
def evA : Event := ⟨"info", "Starting pipeline", 0⟩

/-- A second concrete event, used by the Claim C3 witness. -/
def evB : Event := ⟨"ok", "Summary completed", 1⟩

/-- Witness for Claim C3: a subscriber that saw the log grow in two
steps and one that connected after the job finished deliver the same
sequence. -/
theorem claim_c3_witness :
    deliver 0 [[evA], [evA, evB]] = deliver 0 [[evA, evB]] ∧
    deliver 0 [[evA], [evA, evB]] = [evA, evB] :=
  claim_c3 [[evA], [evA, evB]] [[evA, evB]] [evA, evB]
    ⟨by decide, trivial⟩ trivial rfl rfl

/-- The loop of `_split_transcript` (`summarize.py`):
`for start in range(0, len(text), step): yield text[start : start + step]`
with slice width `s + 1`.  Each iteration consumes at least one
character, so the character count bounds the iteration count; `fuel`
makes that bound explicit and keeps the recursion structural. -/
def splitChunksGo (s : Nat) : Nat → List Char → List (List Char)
  | _, [] => []
  | 0, _ :: _ => []
  | fuel + 1, c :: cs => (c :: cs.take s) :: splitChunksGo s fuel (cs.drop s)

/-- `_split_transcript` of `summarize.py`: `step = max(context_length, 1)`
and consecutive slices of `step` characters. -/
def split_transcript (transcript_text : String) (context_length : Int) : List String :=
  let step := (max context_length 1).toNat
  (splitChunksGo (step - 1) transcript_text.data.length transcript_text.data).map String.mk

theorem splitChunksGo_join (s : Nat) :
    ∀ (fuel : Nat) (l : List Char), l.length ≤ fuel →
      (splitChunksGo s fuel l).flatten = l := by
  intro fuel
  induction fuel with
  | zero =>
    intro l hl
    cases l with
    | nil => simp [splitChunksGo]
    | cons c cs => simp at hl
  | succ fuel ih =>
    intro l hl
    cases l with
    | nil => simp [splitChunksGo]
    | cons c cs =>
      have hrec : (cs.drop s).length ≤ fuel := by
        simp at hl ⊢
        omega
      simp [splitChunksGo, ih _ hrec, List.take_append_drop]

theorem splitChunksGo_nil (s fuel : Nat) : splitChunksGo s fuel [] = [] := by
  cases fuel <;> rfl

theorem splitChunksGo_length_le (s : Nat) :
    ∀ (fuel : Nat) (l : List Char), l.length ≤ fuel →
      ∀ c ∈ splitChunksGo s fuel l, c.length ≤ s + 1 := by
  intro fuel
  induction fuel with
  | zero =>
    intro l hl c hc
    cases l with
    | nil => simp [splitChunksGo] at hc
    | cons x xs => simp at hl
  | succ fuel ih =>
    intro l hl c hc
    cases l with
    | nil => simp [splitChunksGo] at hc
    | cons x xs =>
      simp only [splitChunksGo, List.mem_cons] at hc
      rcases hc with rfl | hc
      · have h := List.length_take_le s xs
        simp only [List.length_cons]
        omega
      · have hrec : (xs.drop s).length ≤ fuel := by
          simp at hl ⊢
          omega
        exact ih _ hrec c hc

theorem splitChunksGo_dropLast_length (s : Nat) :
    ∀ (fuel : Nat) (l : List Char), l.length ≤ fuel →
      ∀ c ∈ (splitChunksGo s fuel l).dropLast, c.length = s + 1 := by
  intro fuel
  induction fuel with
  | zero =>
    intro l hl c hc
    cases l with
    | nil => simp [splitChunksGo] at hc
    | cons x xs => simp at hl
  | succ fuel ih =>
    intro l hl c hc
    cases l with
    | nil => simp [splitChunksGo] at hc
    | cons x xs =>
      simp only [splitChunksGo] at hc
      cases hrec : splitChunksGo s fuel (xs.drop s) with
      | nil => simp [hrec] at hc
      | cons h2 t2 =>
        rw [hrec, List.dropLast_cons₂, List.mem_cons] at hc
        have hne : xs.drop s ≠ [] := by
          intro hemp
          rw [hemp, splitChunksGo_nil] at hrec
          exact List.noConfusion hrec
        have hslt : s < xs.length := by
          by_contra hge
          push_neg at hge
          exact hne (List.drop_eq_nil_of_le hge)
        rcases hc with rfl | hc
        · simp [List.length_take]
          omega
        · have hfl : (xs.drop s).length ≤ fuel := by
            simp at hl ⊢
            omega
          exact ih _ hfl c (by rw [hrec]; exact hc)

theorem foldl_append_mk (l : List (List Char)) (acc : List Char) :
    List.foldl (fun a b => a ++ b) (String.mk acc) (l.map String.mk) =
      String.mk (acc ++ l.flatten) := by
  induction l generalizing acc with
  | nil => simp
  | cons x xs ih =>
    simp only [List.map_cons, List.foldl_cons, List.flatten_cons]
    have hx : String.mk acc ++ String.mk x = String.mk (acc ++ x) := rfl
    rw [hx, ih]
    simp

theorem join_map_mk (l : List (List Char)) :
    String.join (l.map String.mk) = String.mk l.flatten := by
  have h := foldl_append_mk l []
  simpa [String.join] using h

/-- The clamped slice width actually used by `_split_transcript`. -/
theorem split_step_pos (context_length : Int) : 1 ≤ (max context_length 1).toNat := by
  have h := le_max_right context_length 1
  omega

theorem split_transcript_join (text : String) (context_length : Int) :
    String.join (split_transcript text context_length) = text := by
  unfold split_transcript
  rw [join_map_mk, splitChunksGo_join _ _ _ (Nat.le_refl _)]

theorem split_transcript_dropLast (text : String) (context_length : Int) :
    ∀ c ∈ (split_transcript text context_length).dropLast,
      (c.length : Int) = max context_length 1 := by
  intro c hc
  unfold split_transcript at hc
  rw [← List.map_dropLast] at hc
  obtain ⟨lc, hlc, rfl⟩ := List.mem_map.mp hc
  have hlen := splitChunksGo_dropLast_length _ _ _ (Nat.le_refl _) lc hlc
  have hpos := split_step_pos context_length
  have hmx := le_max_right context_length 1
  have : (String.mk lc).length = lc.length := rfl
  rw [this, hlen]
  omega

theorem split_transcript_length_le (text : String) (context_length : Int) :
    ∀ c ∈ split_transcript text context_length,
      (c.length : Int) ≤ max context_length 1 := by
  intro c hc
  unfold split_transcript at hc
  obtain ⟨lc, hlc, rfl⟩ := List.mem_map.mp hc
  have hlen := splitChunksGo_length_le _ _ _ (Nat.le_refl _) lc hlc
  have hpos := split_step_pos context_length
  have hmx := le_max_right context_length 1
  have : (String.mk lc).length = lc.length := rfl
  rw [this]
  omega

/-- Claim C10: `_split_transcript` is total with the step clamped to at
least 1, lossless (the chunks concatenate back to the input), and every
chunk except possibly the last has exactly the clamped width. -/
theorem claim_c10 (text : String) (context_length : Int) :
    String.join (split_transcript text context_length) = text ∧
    (∀ c ∈ (split_transcript text context_length).dropLast,
      (c.length : Int) = max context_length 1) ∧
    (∀ c ∈ split_transcript text context_length,
      (c.length : Int) ≤ max context_length 1) :=
  ⟨split_transcript_join text context_length,
   split_transcript_dropLast text context_length,
   split_transcript_length_le text context_length⟩

/-- Witness for Claim C10 on a 6-character text with a requested chunk
size of 4 (and, for the clamping, of -7). -/
theorem claim_c10_witness :
    String.join (split_transcript "abcdef" 4) = "abcdef" ∧
    (("abcd" : String).length : Int) = max 4 1 ∧
    (("ef" : String).length : Int) ≤ max 4 1 ∧
    String.join (split_transcript "abcdef" (-7)) = "abcdef" :=
  ⟨(claim_c10 "abcdef" 4).1,
   (claim_c10 "abcdef" 4).2.1 "abcd" (by decide),
   (claim_c10 "abcdef" 4).2.2 "ef" (by decide),
   (claim_c10 "abcdef" (-7)).1⟩

/-- The chunk list built at the top of `generate_summary_text`
(`summarize.py`): `if context_length and context_length > 0 and
len(transcript_text) > context_length`, split, else one chunk. -/
def summary_chunks (transcript_text : String) (context_length : Option Int) : List String :=
  match context_length with
  | some n =>
    if n ≠ 0 ∧ 0 < n ∧ n < (transcript_text.length : Int) then
      split_transcript transcript_text n
    else [transcript_text]
  | none => [transcript_text]

/-- The per-chunk loop of `generate_summary_text`: one request per
chunk, in order, skipping chunks whose request produced nothing.
`request` abstracts `_request_summary`, whose body is a single external
model call (returning the stripped response text, or `None` on a failed
or non-string response). -/
def collectSummaries (request : String → Option String) : List String → List String
  | [] => []
  | chunk :: rest =>
    match request chunk with
    | none => collectSummaries request rest
    | some s => s :: collectSummaries request rest

/-- The multi-segment joining of `generate_summary_text`:
`'\n\n'.join(f'### Segment \x7bidx\x7d\n\n\x7bsummary\x7d' for idx, summary
in enumerate(summaries, start=1))`. -/
def segmentBlocks (summaries : List String) : List String :=
  summaries.enum.map (fun p => "### Segment " ++ toString (p.1 + 1) ++ "\n\n" ++ p.2)

/-- `generate_summary_text` of `summarize.py`, with the external model
call abstracted as `request`. -/
def generate_summary_text (request : String → Option String)
    (transcript_text : String) (context_length : Option Int) : Option String :=
  let summaries := collectSummaries request (summary_chunks transcript_text context_length)
  match summaries with
  | [] => none
  | [s] => some s
  | _ => some (String.intercalate "\n\n" (segmentBlocks summaries))

theorem collectSummaries_eq_filterMap (request : String → Option String) (l : List String) :
    collectSummaries request l = l.filterMap request := by
  induction l with
  | nil => rfl
  | cons chunk rest ih =>
    rw [collectSummaries, List.filterMap_cons]
    cases request chunk <;> simp [ih]

/-- Claim C5: with exactly one successful chunk the summary is returned
verbatim; with at least two, the result is the `### Segment i` blocks in
chunk order, numbered by position in the filtered list of successes. -/
theorem claim_c5 (request : String → Option String)
    (transcript_text : String) (context_length : Option Int) :
    (∀ s, (summary_chunks transcript_text context_length).filterMap request = [s] →
      generate_summary_text request transcript_text context_length = some s) ∧
    (∀ summaries, (summary_chunks transcript_text context_length).filterMap request = summaries →
      2 ≤ summaries.length →
      generate_summary_text request transcript_text context_length =
        some (String.intercalate "\n\n"
          (summaries.enum.map (fun p => "### Segment " ++ toString (p.1 + 1) ++ "\n\n" ++ p.2)))) := by
  constructor
  · intro s hs
    rw [generate_summary_text, collectSummaries_eq_filterMap, hs]
  · intro summaries hs hlen
    rw [generate_summary_text, collectSummaries_eq_filterMap, hs]
    match summaries, hlen with
    | a :: b :: rest, _ => rfl

/-- A concrete request oracle that fails on the middle chunk. -/
def reqSkipMiddle (chunk : String) : Option String :=
  if chunk = "BBBBB" then none else some (chunk ++ "!")

/-- Witness for Claim C5: three chunks, the middle one failing; the two
successes are numbered `Segment 1` and `Segment 2`. -/
theorem claim_c5_witness :
    generate_summary_text reqSkipMiddle "AAAAABBBBBCCCCC" (some 5) =
      some "### Segment 1\n\nAAAAA!\n\n### Segment 2\n\nCCCCC!" := by
  have h := (claim_c5 reqSkipMiddle "AAAAABBBBBCCCCC" (some 5)).2
    ["AAAAA!", "CCCCC!"] (by decide) (by decide)
  exact h.trans (by decide)

/-- Claim C6: the overall summarization result is `none` exactly when
every chunk's request failed; in particular one failing chunk among
successes is skipped and is not fatal, and an all-fail run yields `none`
rather than an error. -/
theorem claim_c6 (request : String → Option String)
    (transcript_text : String) (context_length : Option Int) :
    generate_summary_text request transcript_text context_length = none ↔
      ∀ chunk ∈ summary_chunks transcript_text context_length, request chunk = none := by
  rw [generate_summary_text, collectSummaries_eq_filterMap]
  rcases h : (summary_chunks transcript_text context_length).filterMap request with _ | ⟨s, _ | ⟨t, rest⟩⟩
  · simpa using List.filterMap_eq_nil_iff.mp h
  · simp only [reduceCtorEq, false_iff]
    intro hall
    rw [List.filterMap_eq_nil_iff.mpr hall] at h
    exact List.noConfusion h
  · simp only [reduceCtorEq, false_iff]
    intro hall
    rw [List.filterMap_eq_nil_iff.mpr hall] at h
    exact List.noConfusion h

/-- A request oracle that always fails. -/
def reqAlwaysFail (_chunk : String) : Option String := none

/-- Witness for Claim C6: every chunk request failing yields `none`. -/
theorem claim_c6_witness :
    generate_summary_text reqAlwaysFail "Hello world" (some 5) = none :=
  (claim_c6 reqAlwaysFail "Hello world" (some 5)).mpr (by intro c hc; rfl)

/-- The single-chunk condition exactly as Claim C4 words it:
`max_chunk_chars` is unset, zero, or not smaller than `len(text)`. -/
def c4SingleCond (text : String) (context_length : Option Int) : Prop :=
  context_length = none ∨ context_length = some 0 ∨
    ∃ n, context_length = some n ∧ (text.length : Int) ≤ n

/-- The splitting behaviour exactly as Claim C4 words it: consecutive,
non-overlapping slices of exactly `n` characters each, the final slice
possibly shorter. -/
def c4ExactSplit (n : Int) (text : String) (chunks : List String) : Prop :=
  String.join chunks = text ∧
  (∀ c ∈ chunks.dropLast, (c.length : Int) = n) ∧
  (∀ c, chunks.getLast? = some c → (c.length : Int) ≤ n)

/-- Claim C4, formalized from its own words, as a predicate on the chunk
list the code produces. -/
def c4Spec (text : String) (context_length : Option Int) (chunks : List String) : Prop :=
  (c4SingleCond text context_length → chunks = [text]) ∧
  (¬ c4SingleCond text context_length →
    ∃ n, context_length = some n ∧ c4ExactSplit n text chunks)

/-- Counterexample to Claim C4: at `max_chunk_chars = -1` and text
`"abc"` the single-chunk condition of the claim does not hold (`-1` is
neither unset, nor zero, nor at least the length 3), so the claim
requires a split into slices of exactly `-1` characters — but the code
treats any non-positive value as "no chunking" and submits one chunk of
length 3. -/
theorem claim_c4_counterexample :
    summary_chunks "abc" (some (-1)) = ["abc"] ∧
    ¬ c4Spec "abc" (some (-1)) (summary_chunks "abc" (some (-1))) := by
  have he : summary_chunks "abc" (some (-1)) = ["abc"] := by decide
  refine ⟨he, ?_⟩
  intro hspec
  have hnc : ¬ c4SingleCond "abc" (some (-1)) := by
    intro hc
    rcases hc with h | h | ⟨n, hn, hlen⟩
    · exact Option.noConfusion h
    · exact absurd (Option.some_injective _ h) (by decide)
    · rw [← Option.some_injective _ hn] at hlen
      revert hlen
      decide
  obtain ⟨n, hn, hsplit⟩ := hspec.2 hnc
  have hn1 : n = -1 := (Option.some_injective _ hn).symm
  subst hn1
  rw [he] at hsplit
  have hlast := hsplit.2.2 "abc" rfl
  revert hlast
  decide

/-- Claim C4 (amended): if `max_chunk_chars` is unset, zero, negative,
or not smaller than `len(text)`, the whole text is submitted as one
chunk; if `0 < max_chunk_chars < len(text)`, the text is split into
consecutive non-overlapping slices of exactly `max_chunk_chars`
characters, the final slice possibly shorter (so 15 characters with
`max_chunk_chars = 5` give exactly 3 chunks). -/
theorem claim_c4_amended (text : String) (context_length : Option Int) :
    ((context_length = none ∨
        ∃ n, context_length = some n ∧ (n ≤ 0 ∨ (text.length : Int) ≤ n)) →
      summary_chunks text context_length = [text]) ∧
    (∀ n, context_length = some n → 0 < n → n < (text.length : Int) →
      summary_chunks text context_length = split_transcript text n ∧
      String.join (split_transcript text n) = text ∧
      (∀ c ∈ (split_transcript text n).dropLast, (c.length : Int) = n) ∧
      (∀ c ∈ split_transcript text n, (c.length : Int) ≤ n)) := by
  constructor
  · intro h
    rcases h with h | ⟨n, hn, hcase⟩
    · rw [h]; rfl
    · rw [hn]
      rw [summary_chunks]
      rw [if_neg]
      intro ⟨hne, hpos, hlt⟩
      rcases hcase with hle | hge
      · omega
      · omega
  · intro n hn hpos hlt
    have hmx : max n 1 = n := max_eq_left hpos
    refine ⟨?_, split_transcript_join text n, ?_, ?_⟩
    · rw [hn, summary_chunks, if_pos ⟨by omega, hpos, hlt⟩]
    · intro c hc
      have := split_transcript_dropLast text n c hc
      rw [hmx] at this
      exact this
    · intro c hc
      have := split_transcript_length_le text n c hc
      rw [hmx] at this
      exact this

/-- Witness for Claim C4 (amended) at a 15-character text with
`max_chunk_chars = 5`: the split branch applies and yields exactly 3
chunks; and at `max_chunk_chars = 0` the whole text is one chunk. -/
theorem claim_c4_witness :
    summary_chunks "AAAAABBBBBCCCCC" (some 5) = split_transcript "AAAAABBBBBCCCCC" 5 ∧
    (summary_chunks "AAAAABBBBBCCCCC" (some 5)).length = 3 ∧
    String.join (split_transcript "AAAAABBBBBCCCCC" 5) = "AAAAABBBBBCCCCC" ∧
    summary_chunks "AAAAABBBBBCCCCC" (some 0) = ["AAAAABBBBBCCCCC"] := by
  have h := (claim_c4_amended "AAAAABBBBBCCCCC" (some 5)).2 5 rfl (by decide) (by decide)
  have h0 := (claim_c4_amended "AAAAABBBBBCCCCC" (some 0)).1
    (Or.inr ⟨0, rfl, Or.inl (by decide)⟩)
  exact ⟨h.1, by decide, h.2.1, h0⟩

/-- One Whisper output segment, as consumed by `segments_to_srt`
(`transcribe.py`): the dict keys `start`, `end` and `text`.  The float
times are modelled by exact rationals; `stop` stands for the key
`end` (a reserved word).  All Python float operations performed on the
claim's example values are exact in double precision, so the rational
model agrees with the code there. -/
structure Segment where
  start : ℚ
  stop : ℚ
  text : String
deriving DecidableEq

/-- Python `a // b` for floats with positive `b`: the floor of the
quotient, as a float (here an exact rational). -/
def pyFloorDiv (a b : ℚ) : ℚ := ((a / b).floor : ℤ)

/-- Python `a % b` for floats with positive `b`:
`a - b * (a // b)`, non-negative for positive `b`. -/
def pyMod (a b : ℚ) : ℚ := a - b * ((a / b).floor : ℤ)

/-- Python `int()` on a float: truncation toward zero. -/
def pyInt (q : ℚ) : ℤ := if q < 0 then q.ceil else q.floor

/-- Zero-padded decimal rendering of a natural number. -/
def natZfill (w : Nat) (n : Nat) : String :=
  let s := toString n
  String.mk (List.replicate (w - s.length) '0') ++ s

/-- Python `f'{n:02d}'` / `f'{n:03d}'`: decimal rendering of `n` padded
with leading zeros to width `w`, the sign preceding the zeros. -/
def zfill (w : Nat) (n : Int) : String :=
  if n < 0 then "-" ++ natZfill (w - 1) (-n).toNat else natZfill w n.toNat

/-- `fmt_time` of `segments_to_srt` (`transcribe.py`):
`HH:MM:SS,mmm`, or `HH:MM:SS` when `simple_time`. -/
def fmt_time (simple_time : Bool) (t : ℚ) : String :=
  let hours := pyInt (pyFloorDiv t 3600)
  let minutes := pyInt (pyFloorDiv (pyMod t 3600) 60)
  let seconds := pyInt (pyMod t 60)
  if simple_time then
    zfill 2 hours ++ ":" ++ zfill 2 minutes ++ ":" ++ zfill 2 seconds
  else
    let milliseconds := pyInt ((t - (pyInt t : ℚ)) * 1000)
    zfill 2 hours ++ ":" ++ zfill 2 minutes ++ ":" ++ zfill 2 seconds ++ "," ++ zfill 3 milliseconds

/-- Python `str.strip()`: remove leading and trailing whitespace. -/
def pyStrip (s : String) : String :=
  String.mk (((s.data.dropWhile Char.isWhitespace).reverse.dropWhile Char.isWhitespace).reverse)

/-- Python `str.lower()`, character by character. -/
def pyLower (s : String) : String := String.mk (s.data.map Char.toLower)

/-- The four lines one enumerated segment contributes to the SRT body:
index, time line, stripped text, blank. -/
def srtBlock (simple_time : Bool) (p : Nat × Segment) : List String :=
  [toString p.1,
   fmt_time simple_time p.2.start ++ " --> " ++ fmt_time simple_time p.2.stop,
   pyStrip p.2.text,
   ""]

/-- The line-building loop of `segments_to_srt`
(`for i, seg in enumerate(segments, start=1)`), with the running index
made explicit. -/
def srtLines (simple_time : Bool) : Nat → List Segment → List String
  | _, [] => []
  | i, seg :: rest =>
    toString i ::
      (fmt_time simple_time seg.start ++ " --> " ++ fmt_time simple_time seg.stop) ::
      pyStrip seg.text :: "" :: srtLines simple_time (i + 1) rest

/-- `segments_to_srt` of `transcribe.py`: the built lines joined with
newlines. -/
def segments_to_srt (segments : List Segment) (simple_time : Bool) : String :=
  String.intercalate "\n" (srtLines simple_time 1 segments)

theorem srtLines_eq_blocks (simple_time : Bool) (segs : List Segment) :
    ∀ i : Nat, srtLines simple_time i segs =
      (((List.range' i segs.length).zip segs).map (srtBlock simple_time)).flatten := by
  induction segs with
  | nil => intro i; simp [srtLines]
  | cons seg rest ih =>
    intro i
    simp only [srtLines, List.length_cons, List.range', List.zip_cons_cons, List.map_cons,
      List.flatten_cons, ih (i + 1), srtBlock]
    rfl

section

attribute [local semireducible] Rat.add Rat.sub Rat.mul Rat.inv Rat.ofScientific

/-- Claim C7: caption rendering numbers the segments 1, 2, ... in input
order, each entry being index, `start --> end`, text, blank line; the
example segments render with `HH:MM:SS,mmm` timestamps exactly as
claimed, and simple mode drops the `,mmm` suffix. -/
theorem claim_c7 (segments : List Segment) (simple_time : Bool) :
    segments_to_srt segments simple_time =
      String.intercalate "\n"
        ((((List.range' 1 segments.length).zip segments).map (srtBlock simple_time)).flatten) ∧
    fmt_time false 0 = "00:00:00,000" ∧
    fmt_time false 1.234 = "00:00:01,234" ∧
    fmt_time false 61 = "00:01:01,000" ∧
    fmt_time false 62.5 = "00:01:02,500" ∧
    fmt_time true 1.234 = "00:00:01" ∧
    fmt_time true 62.5 = "00:01:02" ∧
    segments_to_srt [⟨0, 1.234, "Hello"⟩, ⟨61, 62.5, "World"⟩] false =
      "1\n00:00:00,000 --> 00:00:01,234\nHello\n\n2\n00:01:01,000 --> 00:01:02,500\nWorld\n" ∧
    segments_to_srt [⟨0, 1.234, "Hello"⟩, ⟨61, 62.5, "World"⟩] true =
      "1\n00:00:00 --> 00:00:01\nHello\n\n2\n00:01:01 --> 00:01:02\nWorld\n" :=
  ⟨by rw [segments_to_srt, srtLines_eq_blocks],
   by decide, by decide, by decide, by decide, by decide, by decide, by decide, by decide⟩

end

/-- A filesystem path, split as `pathlib.Path` reports it: the
containing directory, the stem, and the dot-prefixed suffix. -/
structure MPath where
  dir : String
  stem : String
  suffix : String
deriving DecidableEq

/-- `Path.name`: stem plus suffix. -/
def MPath.name (p : MPath) : String := p.stem ++ p.suffix

/-- The full path string, used as the key into the file map. -/
def MPath.full (p : MPath) : String := p.dir ++ "/" ++ p.stem ++ p.suffix

/-- The filesystem as a map from full paths to file contents.
Directories are created on demand (`mkdir(parents=True, exist_ok=True)`)
and carry no observable content, so only files are tracked. -/
def FS := List (String × String)

instance : DecidableEq FS := inferInstanceAs (DecidableEq (List (String × String)))

/-- `Path.exists()` for a file. -/
def fsHas (fs : FS) (p : MPath) : Bool := (fs.lookup p.full).isSome

/-- `read_text` of an existing file (empty if absent). -/
def fsRead (fs : FS) (p : MPath) : String := (fs.lookup p.full).getD ""

/-- `write_text` / file creation. -/
def fsWrite (fs : FS) (p : MPath) (content : String) : FS := (p.full, content) :: fs

/-- `VIDEO_EXTENSIONS` of `utils.py`. -/
def VIDEO_EXTENSIONS : List String :=
  [".mp4", ".mov", ".mkv", ".avi", ".webm", ".m4v", ".flv", ".3gp", ".ts", ".vob",
   ".wmv", ".mpeg", ".mpg", ".m2ts", ".ogv"]

/-- `AUDIO_EXTENSIONS` of `utils.py`. -/
def AUDIO_EXTENSIONS : List String :=
  [".wav", ".mp3", ".aac", ".ogg", ".flac", ".m4a", ".wma", ".webm", ".opus"]

/-- Errors raised by staging and transcription.  In the source they are
`SystemExit` (validation and missing input, and the caught ffmpeg
failure of `convert_to_wav`) or `CalledProcessError` (the uncaught
ffmpeg failure of `extract_audio`); the constructors follow the spec's
taxonomy and record the raise site. -/
inductive StageError
  | validation (msg : String)
  | externalTool (msg : String)
  | modelLoad (msg : String)
deriving DecidableEq

deriving instance DecidableEq for Except

/-- `require_ext` of `utils.py`: error unless the lower-cased suffix is
in the (lower-cased) allow-list. -/
def require_ext (path : MPath) (allowed : List String) (kind : String) : Except StageError Unit :=
  let ext := pyLower path.suffix
  if ext ∈ allowed.map pyLower then Except.ok ()
  else Except.error (StageError.validation ("Unsupported " ++ kind ++ " extension: " ++ ext))

/-- Outcome of a staging-style call: the filesystem afterwards, how many
times the external tool was invoked, and the returned value or raised
error. -/
structure StageResult (α : Type) where
  fs : FS
  toolCalls : Nat
  output : Except StageError α
deriving DecidableEq

/-- `extract_audio` of `extract_audio.py`.  `ffmpegOutcome` abstracts
the single `subprocess.run(ffmpeg ...)` call: `some content` means the
tool exited 0 after writing `content` to the target `.wav` file, `none`
means a non-zero exit (`CalledProcessError`, uncaught here). -/
def extract_audio (fs : FS) (video_path : MPath) (outdir : String)
    (ffmpegOutcome : Option String) : StageResult MPath :=
  if fsHas fs video_path = false then
    ⟨fs, 0, Except.error (StageError.validation ("Video not found: " ++ video_path.full))⟩
  else
    match require_ext video_path VIDEO_EXTENSIONS "video" with
    | Except.error e => ⟨fs, 0, Except.error e⟩
    | Except.ok _ =>
      let audio_path : MPath := ⟨outdir, video_path.stem, ".wav"⟩
      if fsHas fs audio_path then ⟨fs, 0, Except.ok audio_path⟩
      else
        match ffmpegOutcome with
        | none => ⟨fs, 1, Except.error (StageError.externalTool "ffmpeg exited with non-zero status")⟩
        | some content => ⟨fsWrite fs audio_path content, 1, Except.ok audio_path⟩

/-- `convert_to_wav` of `utils.py` (with the default
`overwrite=False`, which every caller uses). -/
def convert_to_wav (fs : FS) (audio_path : MPath) (outdir : String)
    (ffmpegOutcome : Option String) : StageResult MPath :=
  if pyLower audio_path.suffix = ".wav" then ⟨fs, 0, Except.ok audio_path⟩
  else
    let wav_path : MPath := ⟨outdir, audio_path.stem, ".wav"⟩
    if fsHas fs wav_path then ⟨fs, 0, Except.ok wav_path⟩
    else
      match ffmpegOutcome with
      | none => ⟨fs, 1, Except.error (StageError.externalTool "ffmpeg conversion failed")⟩
      | some content => ⟨fsWrite fs wav_path content, 1, Except.ok wav_path⟩

/-- The Whisper side of `transcribe_audio`: whether `load_model` raises,
and the `text` and `segments` fields of the `model.transcribe` result
dict. -/
structure WhisperEnv where
  loadFails : Option String
  text : String
  segments : List Segment

/-- Outcome of `transcribe_audio`: filesystem, ffmpeg invocations, model
loads, and the transcript text or raised error. -/
structure TranscribeResult where
  fs : FS
  toolCalls : Nat
  modelLoads : Nat
  output : Except StageError String
deriving DecidableEq

/-- `transcribe_audio` of `transcribe.py`: validate, optionally convert
to WAV, reuse an existing transcript, otherwise load the model, run it,
persist the transcript and (when segments are present and no SRT file
exists yet) the SRT file. -/
def transcribe_audio (fs : FS) (audio_path : MPath) (outdir : String) (whisper : WhisperEnv)
    (make_srt simple_srt_time auto_convert_wav : Bool) (ffmpegOutcome : Option String) :
    TranscribeResult :=
  if fsHas fs audio_path = false then
    ⟨fs, 0, 0, Except.error (StageError.validation ("Audio not found: " ++ audio_path.full))⟩
  else
    match require_ext audio_path AUDIO_EXTENSIONS "audio" with
    | Except.error e => ⟨fs, 0, 0, Except.error e⟩
    | Except.ok _ =>
      match (if auto_convert_wav then convert_to_wav fs audio_path outdir ffmpegOutcome
             else ⟨fs, 0, Except.ok audio_path⟩ : StageResult MPath) with
      | ⟨fs1, calls1, Except.error e⟩ => ⟨fs1, calls1, 0, Except.error e⟩
      | ⟨fs1, calls1, Except.ok apath⟩ =>
        let transcript_path : MPath := ⟨outdir, apath.stem, ".transcript.txt"⟩
        if fsHas fs1 transcript_path then
          ⟨fs1, calls1, 0, Except.ok (fsRead fs1 transcript_path)⟩
        else
          match whisper.loadFails with
          | some e => ⟨fs1, calls1, 1, Except.error (StageError.modelLoad e)⟩
          | none =>
            let transcript_text := whisper.text
            let fs2 := fsWrite fs1 transcript_path transcript_text
            let fs3 :=
              if make_srt = true ∧ whisper.segments ≠ [] then
                let srt_path : MPath := ⟨outdir, apath.stem, ".srt"⟩
                if fsHas fs2 srt_path then fs2
                else fsWrite fs2 srt_path (segments_to_srt whisper.segments simple_srt_time)
              else fs2
            ⟨fs3, calls1, 1, Except.ok transcript_text⟩

/-- Claim C8: for an existing input file whose lower-cased extension is
absent from the respective allow-list, staging and transcription fail
with the validation error naming the rejected extension, leave the
filesystem unchanged (no output file written), and never invoke the
external tool or load the model. -/
theorem claim_c8 (fs : FS) (video_path audio_path : MPath) (outv outa : String)
    (ff : Option String) (w : WhisperEnv) (msrt ssrt acw : Bool) (ff2 : Option String)
    (hv : fsHas fs video_path = true)
    (hvext : pyLower video_path.suffix ∉ VIDEO_EXTENSIONS.map pyLower)
    (ha : fsHas fs audio_path = true)
    (haext : pyLower audio_path.suffix ∉ AUDIO_EXTENSIONS.map pyLower) :
    extract_audio fs video_path outv ff =
      ⟨fs, 0, Except.error (StageError.validation
        ("Unsupported video extension: " ++ pyLower video_path.suffix))⟩ ∧
    transcribe_audio fs audio_path outa w msrt ssrt acw ff2 =
      ⟨fs, 0, 0, Except.error (StageError.validation
        ("Unsupported audio extension: " ++ pyLower audio_path.suffix))⟩ := by
  constructor
  · simp [extract_audio, require_ext, hv, hvext]
  · simp [transcribe_audio, require_ext, ha, haext]

/-- Concrete filesystem for the C8/C9 witnesses. -/
def fsW : FS :=
  [("up/doc.txt", "DOC"), ("up/v.mp4", "VIDEO"), ("up/a.mp3", "AUDIO"),
   ("out/v.wav", "WAVDATA"), ("out/a.transcript.txt", "existing transcript")]

/-- Witness for Claim C8 on `fsW` with a `.txt` upload. -/
theorem claim_c8_witness :
    extract_audio fsW ⟨"up", "doc", ".txt"⟩ "out" (some "X") =
      ⟨fsW, 0, Except.error (StageError.validation "Unsupported video extension: .txt")⟩ ∧
    transcribe_audio fsW ⟨"up", "doc", ".txt"⟩ "out" ⟨none, "T", []⟩ true false false none =
      ⟨fsW, 0, 0, Except.error (StageError.validation "Unsupported audio extension: .txt")⟩ :=
  claim_c8 fsW ⟨"up", "doc", ".txt"⟩ ⟨"up", "doc", ".txt"⟩ "out" "out"
    (some "X") ⟨none, "T", []⟩ true false false none
    (by decide) (by decide) (by decide) (by decide)

/-- Claim C9: when the expected derived output already exists, the stage
returns it without invoking the tool or loading the model, for any
oracle behaviour, with the filesystem unchanged: staging returns the
existing audio path, transcription returns exactly the text read from
the existing transcript file. -/
theorem claim_c9 (fs : FS) (video_path audio_path : MPath) (outdir : String)
    (ff : Option String) (w : WhisperEnv) (msrt ssrt : Bool) (ff2 : Option String)
    (content : String)
    (hv : fsHas fs video_path = true)
    (hvext : pyLower video_path.suffix ∈ VIDEO_EXTENSIONS.map pyLower)
    (hwav : fsHas fs ⟨outdir, video_path.stem, ".wav"⟩ = true)
    (ha : fsHas fs audio_path = true)
    (haext : pyLower audio_path.suffix ∈ AUDIO_EXTENSIONS.map pyLower)
    (htr : fs.lookup (MPath.full ⟨outdir, audio_path.stem, ".transcript.txt"⟩) = some content) :
    extract_audio fs video_path outdir ff = ⟨fs, 0, Except.ok ⟨outdir, video_path.stem, ".wav"⟩⟩ ∧
    transcribe_audio fs audio_path outdir w msrt ssrt false ff2 = ⟨fs, 0, 0, Except.ok content⟩ := by
  constructor
  · simp [extract_audio, require_ext, hv, hvext, hwav]
  · have hhas : fsHas fs ⟨outdir, audio_path.stem, ".transcript.txt"⟩ = true := by
      simp [fsHas, htr]
    simp [transcribe_audio, require_ext, ha, haext, hhas, fsRead, htr]

/-- Witness for Claim C9 on `fsW`: the `.wav` for `v.mp4` and the
transcript for `a.mp3` already exist and are returned untouched. -/
theorem claim_c9_witness :
    extract_audio fsW ⟨"up", "v", ".mp4"⟩ "out" none =
      ⟨fsW, 0, Except.ok ⟨"out", "v", ".wav"⟩⟩ ∧
    transcribe_audio fsW ⟨"up", "a", ".mp3"⟩ "out" ⟨some "no model", "", []⟩ true false false none =
      ⟨fsW, 0, 0, Except.ok "existing transcript"⟩ :=
  claim_c9 fsW ⟨"up", "v", ".mp4"⟩ ⟨"up", "a", ".mp3"⟩ "out"
    none ⟨some "no model", "", []⟩ true false none "existing transcript"
    (by decide) (by decide) (by decide) (by decide) (by decide) (by decide)

end MeetingSummary
